import Mathlib

/-!
Verification of the Campaign Manager 2026 simulation engine.

This file shallowly embeds the engine of the campaign-management game:
the value models (`State`, `Player`, `GameState`, actions, events), the
action processor, the event application, the electoral calculator and the
AI strategy selection.  Python floats are modelled as rationals (`ℚ`),
Python ints as `ℤ` (or `ℕ` for electoral votes), and Python's
`round(x, 1)` as rounding `10*x` to the nearest integer (`round1`).
Randomness is made explicit: the action processor's seeded generator is a
stream of integer draws (`List ℤ`) threaded through `execute_action`, and
the module-level (unseeded) generator used by the electoral calculator's
tie-breaking is a separate stream of booleans (`List Bool`) passed to
`calculate_final_result`.
-/

namespace Campaign

/-- Clamp a support percentage into [0, 100]
(source: the `max(0.0, min(100.0, …))` steps of `State.apply_support_change`). -/
def clamp100 (x : ℚ) : ℚ := max 0 (min 100 x)

/-- Round to one decimal place, modelling Python's `round(x, 1)`
(ties are sent up rather than to even; no claim below depends on the tie rule). -/
def round1 (x : ℚ) : ℚ := (round (10 * x) : ℤ) / 10

/-- The proportional rescale of `State.apply_support_change`: when the clamped
supports sum over 100, both are multiplied by `100 / total`. -/
def rescale (a b : ℚ) : ℚ × ℚ :=
  if 100 < a + b then (a * (100 / (a + b)), b * (100 / (a + b))) else (a, b)

/-- Source: `State._calculate_lean`. -/
def calculate_lean (margin : ℚ) : String :=
  if 15 ≤ margin then "Safe Inc"
  else if 5 ≤ margin then "Lean Inc"
  else if -5 < margin then "Tossup"
  else if -15 < margin then "Lean Chl"
  else "Safe Chl"

/-- Source: `models/state.py`, dataclass `State`. -/
structure State where
  name : String
  abbreviation : String
  electoral_votes : ℕ
  incumbent_support : ℚ
  challenger_support : ℚ
  lean : String
  region : String
  deriving Repr, DecidableEq

/-- Source: `State.margin`. -/
def State.margin (s : State) : ℚ := s.incumbent_support - s.challenger_support

/-- Source: `State.apply_support_change` — clamp each side to [0,100], rescale
proportionally when the sum exceeds 100, store each side rounded to one
decimal, and recompute `lean` from the pre-rounding margin. -/
def State.apply_support_change (s : State) (incumbent_change challenger_change : ℚ) :
    State :=
  let p := rescale (clamp100 (s.incumbent_support + incumbent_change))
                   (clamp100 (s.challenger_support + challenger_change))
  { s with
    incumbent_support := round1 p.1
    challenger_support := round1 p.2
    lean := calculate_lean (p.1 - p.2) }

theorem clamp100_nonneg (x : ℚ) : 0 ≤ clamp100 x := le_max_left 0 _

theorem clamp100_le (x : ℚ) : clamp100 x ≤ 100 := by
  simp only [clamp100, max_le_iff]
  exact ⟨by norm_num, min_le_left _ _⟩

theorem rescale_bounds {a b : ℚ} (ha0 : 0 ≤ a) (ha1 : a ≤ 100) (hb0 : 0 ≤ b)
    (hb1 : b ≤ 100) :
    0 ≤ (rescale a b).1 ∧ (rescale a b).1 ≤ 100 ∧
    0 ≤ (rescale a b).2 ∧ (rescale a b).2 ≤ 100 ∧
    (rescale a b).1 + (rescale a b).2 ≤ 100 := by
  unfold rescale
  split
  · rename_i h
    dsimp only
    have htpos : (0 : ℚ) < a + b := by linarith
    have hne : a + b ≠ 0 := ne_of_gt htpos
    have hA : (0 : ℚ) ≤ a * (100 / (a + b)) := by positivity
    have hB : (0 : ℚ) ≤ b * (100 / (a + b)) := by positivity
    have key : a * (100 / (a + b)) + b * (100 / (a + b)) = 100 := by
      field_simp
      ring
    exact ⟨hA, by linarith, hB, by linarith, le_of_eq key⟩
  · rename_i h
    push_neg at h
    exact ⟨ha0, ha1, hb0, hb1, h⟩

theorem round1_nonneg {x : ℚ} (hx : 0 ≤ x) : 0 ≤ round1 x := by
  unfold round1
  have h0 : (0 : ℤ) ≤ round (10 * x) := by
    rw [round_eq]
    exact Int.le_floor.2 (by push_cast; linarith)
  positivity

theorem round1_le_hundred {x : ℚ} (hx : x ≤ 100) : round1 x ≤ 100 := by
  unfold round1
  have h : round (10 * x) ≤ 1000 := by
    rw [round_eq]
    have : (10 : ℚ) * x + 1 / 2 < 1000 + 1 := by linarith
    exact Int.lt_add_one_iff.mp (Int.floor_lt.2 (by push_cast; linarith))
  rw [div_le_iff (by norm_num : (0:ℚ) < 10)]
  calc ((round (10 * x) : ℤ) : ℚ) ≤ (1000 : ℤ) := by exact_mod_cast h
    _ = 100 * 10 := by norm_num

theorem round1_le (x : ℚ) : round1 x ≤ x + 1 / 20 := by
  unfold round1
  rw [round_eq, div_le_iff (by norm_num : (0:ℚ) < 10)]
  have := Int.floor_le (10 * x + 1 / 2)
  linarith

theorem lt_round1 (x : ℚ) : x - 1 / 20 < round1 x := by
  unfold round1
  rw [round_eq, lt_div_iff (by norm_num : (0:ℚ) < 10)]
  have := Int.lt_floor_add_one (10 * x + 1 / 2)
  linarith

/-- C2: after `apply_support_change`, both supports lie in [0,100] and their sum
is at most 100 plus the ε = 0.1 contributed by rounding each side to one
decimal after the proportional rescale. -/
theorem apply_support_change_invariant (s : State) (ic cc : ℚ) :
    0 ≤ (s.apply_support_change ic cc).incumbent_support ∧
    (s.apply_support_change ic cc).incumbent_support ≤ 100 ∧
    0 ≤ (s.apply_support_change ic cc).challenger_support ∧
    (s.apply_support_change ic cc).challenger_support ≤ 100 ∧
    (s.apply_support_change ic cc).incumbent_support +
      (s.apply_support_change ic cc).challenger_support ≤ 100 + 1 / 10 := by
  have hb := rescale_bounds (clamp100_nonneg (s.incumbent_support + ic))
    (clamp100_le (s.incumbent_support + ic))
    (clamp100_nonneg (s.challenger_support + cc))
    (clamp100_le (s.challenger_support + cc))
  obtain ⟨h1, h2, h3, h4, h5⟩ := hb
  simp only [State.apply_support_change]
  refine ⟨round1_nonneg h1, round1_le_hundred h2, round1_nonneg h3,
    round1_le_hundred h4, ?_⟩
  have ha := round1_le (rescale (clamp100 (s.incumbent_support + ic))
    (clamp100 (s.challenger_support + cc))).1
  have hbb := round1_le (rescale (clamp100 (s.incumbent_support + ic))
    (clamp100 (s.challenger_support + cc))).2
  linarith

/-- Source: `models/player.py`, dataclass `Player`
(funds in millions; momentum clamped to [−100, 100] by the update operations). -/
structure Player where
  name : String
  is_incumbent : Bool
  funds : ℤ
  momentum : ℤ
  is_human : Bool
  deriving Repr, DecidableEq

/-- Source: `Player.momentum_modifier` — `1.0 + momentum / 200.0`. -/
def Player.momentum_modifier (p : Player) : ℚ := 1 + (p.momentum : ℚ) / 200

/-- Source: `Player.can_afford`. -/
def Player.can_afford (p : Player) (cost : ℤ) : Bool := cost ≤ p.funds

/-- Source: `Player.adjust_momentum`. -/
def Player.adjust_momentum (p : Player) (change : ℤ) : Player :=
  { p with momentum := max (-100) (min 100 (p.momentum + change)) }

/-- Source: `Player.update` — funds floored at 0, momentum clamped to [−100, 100]. -/
def Player.update (p : Player) (funds_change momentum_change : ℤ) : Player :=
  { p with
    funds := max 0 (p.funds + funds_change)
    momentum := max (-100) (min 100 (p.momentum + momentum_change)) }

/-- Source: `models/actions.py`, enum `ActionType`. -/
inductive ActionType where
  | FUNDRAISER | RALLY | AD_CAMPAIGN | GRASSROOTS
  | DEBATE_PREP | OPPOSITION_RESEARCH | MEDIA_BLITZ
  deriving Repr, DecidableEq

/-- Source: `models/actions.py`, dataclass `ActionDefinition`
(description strings are presentation-only and omitted). -/
structure ActionDefinition where
  action_type : ActionType
  name : String
  cost : ℤ
  base_support_change : ℚ
  momentum_change : ℤ
  target_states : ℕ
  deriving Repr, DecidableEq

/-- Source: `ACTION_DEFINITIONS` / `get_action_definition` in `models/actions.py`. -/
def get_action_definition : ActionType → ActionDefinition
  | .FUNDRAISER => ⟨.FUNDRAISER, "Fundraiser", 0, 0, -5, 0⟩
  | .RALLY => ⟨.RALLY, "Campaign Rally", 2, 3, 5, 1⟩
  | .AD_CAMPAIGN => ⟨.AD_CAMPAIGN, "Ad Campaign", 4, 2, 3, 3⟩
  | .GRASSROOTS => ⟨.GRASSROOTS, "Grassroots Organizing", 1, mkRat 3 2, 2, 2⟩
  | .DEBATE_PREP => ⟨.DEBATE_PREP, "Debate Preparation", 1, 0, 10, 0⟩
  | .OPPOSITION_RESEARCH => ⟨.OPPOSITION_RESEARCH, "Opposition Research", 3, mkRat (-5) 2, 0, 0⟩
  | .MEDIA_BLITZ => ⟨.MEDIA_BLITZ, "Media Blitz", 3, mkRat 3 2, 8, 0⟩

/-- Source: `models/actions.py`, dataclass `ActionResult`
(the `support_changes` dict is modelled as an association list in the order
the processor writes its keys). -/
structure ActionResult where
  action_type : ActionType
  success : Bool
  message : String
  funds_spent : ℤ
  funds_raised : ℤ
  support_changes : List (String × ℚ)
  momentum_change : ℤ
  affected_states : List String
  deriving Repr, DecidableEq

/-- Source: `models/events.py`, dataclass `GameEvent` (the presentation-only
fields `event_type`, `title` and `description`, which `apply_event` never
reads, are omitted). -/
structure GameEvent where
  affects_incumbent : Bool
  support_change : ℚ
  momentum_change : ℤ
  affected_states : List String
  turn_occurred : ℤ
  deriving Repr, DecidableEq

/-- Source: `GameEvent.is_national` — empty affected-state list means national. -/
def GameEvent.is_national (e : GameEvent) : Bool := e.affected_states.isEmpty

/-- The `states` dict of `GameState`: abbreviation → `State`, as an association
list in insertion order (Python dicts preserve it). -/
abbrev StateMap : Type := List (String × State)

/-- Source: `models/game_state.py`, dataclass `GameState`. -/
structure GameState where
  incumbent : Player
  challenger : Player
  states : StateMap
  current_turn : ℤ
  max_turns : ℤ
  events_log : List GameEvent
  game_over : Bool
  winner : Option String
  deriving DecidableEq

/-- Source: `GameState.incumbent_electoral_votes` — electoral votes of states
where the incumbent's support is strictly higher. -/
def GameState.incumbent_electoral_votes (gs : GameState) : ℕ :=
  ((gs.states.filter
    (fun p => p.2.challenger_support < p.2.incumbent_support)).map
      (fun p => p.2.electoral_votes)).sum

/-- Source: `GameState.challenger_electoral_votes`. -/
def GameState.challenger_electoral_votes (gs : GameState) : ℕ :=
  ((gs.states.filter
    (fun p => p.2.incumbent_support < p.2.challenger_support)).map
      (fun p => p.2.electoral_votes)).sum

/-- Source: `GameState.tied_electoral_votes`. -/
def GameState.tied_electoral_votes (gs : GameState) : ℕ :=
  ((gs.states.filter
    (fun p => p.2.incumbent_support = p.2.challenger_support)).map
      (fun p => p.2.electoral_votes)).sum

/-- Source: `GameState.total_electoral_votes`. -/
def GameState.total_electoral_votes (gs : GameState) : ℕ :=
  (gs.states.map (fun p => p.2.electoral_votes)).sum

/-- Source: `GameState.advance_turn`. -/
def GameState.advance_turn (gs : GameState) : GameState :=
  { gs with current_turn := gs.current_turn + 1 }

/-- Source: `GameState.end_game`. -/
def GameState.end_game (gs : GameState) (w : String) : GameState :=
  { gs with game_over := true, winner := some w }

/-- Replace the value stored at key `ab` (a Python dict assignment for an
existing key; keys and their order are unchanged). -/
def setState (st : StateMap) (ab : String) (s : State) : StateMap :=
  st.map (fun p => if p.1 = ab then (p.1, s) else p)

/-- Dict lookup on the association list. -/
def getState (st : StateMap) (ab : String) : Option State :=
  st.lookup ab

/-- Result of one `ActionProcessor.execute_action` call: the new game state,
the action result, and the rest of the processor's seeded draw stream. -/
structure ProcOut where
  game : GameState
  result : ActionResult
  rng : List ℤ
  deriving DecidableEq

/-- One draw of `random.Random.randint(lo, hi)` from the seeded stream: the
head of the stream reduced into [lo, hi], consuming it. -/
def randint (lo hi : ℤ) (rng : List ℤ) : ℤ × List ℤ :=
  (lo + rng.headI % (hi - lo + 1), rng.tail)

/-- Source: `ActionProcessor._execute_fundraiser` — raises 3–6M from the seeded
generator, applies the fundraiser's momentum delta, no support effect. -/
def execute_fundraiser (gs : GameState) (inc : Bool) (defn : ActionDefinition)
    (rng : List ℤ) : ProcOut :=
  let (funds_raised, rng') := randint 3 6 rng
  let player := if inc then gs.incumbent else gs.challenger
  let new_player := player.update funds_raised defn.momentum_change
  let new_gs := { gs with
    incumbent := if inc then new_player else gs.incumbent
    challenger := if inc then gs.challenger else new_player }
  ⟨new_gs,
   ⟨.FUNDRAISER, true, "Fundraiser raised funds", 0, funds_raised, [],
    defn.momentum_change, []⟩,
   rng'⟩

/-- Source: `ActionProcessor._execute_opposition_research` — deducts the cost,
applies `base_support_change × momentum_modifier` to the opponent's support
in every state, and records that delta for every state. -/
def execute_opposition_research (gs : GameState) (inc : Bool)
    (defn : ActionDefinition) : GameState × ActionResult :=
  let player := if inc then gs.incumbent else gs.challenger
  let new_player := player.update (-defn.cost) defn.momentum_change
  let effect := defn.base_support_change * player.momentum_modifier
  let new_states : StateMap := gs.states.map (fun p =>
    (p.1, if inc then p.2.apply_support_change 0 effect
          else p.2.apply_support_change effect 0))
  let support_changes := gs.states.map (fun p => (p.1, effect))
  let new_gs := { gs with
    incumbent := if inc then new_player else gs.incumbent
    challenger := if inc then gs.challenger else new_player
    states := new_states }
  (new_gs,
   ⟨.OPPOSITION_RESEARCH, true, "Opposition research damages opponent",
    defn.cost, 0, support_changes, defn.momentum_change,
    gs.states.map (fun p => p.1)⟩)

/-- Source: the per-target loop of `ActionProcessor._execute_targeted_action`:
for each target in order, when the abbreviation is a key of the states map,
apply the effect to the acting player's own support there and record the
delta; unknown abbreviations are skipped silently. -/
def applyTargets (inc : Bool) (effect : ℚ) :
    StateMap → List String → StateMap × List (String × ℚ)
  | st, [] => (st, [])
  | st, ab :: rest =>
    match getState st ab with
    | some s =>
      let st' := setState st ab
        (if inc then s.apply_support_change effect 0
         else s.apply_support_change 0 effect)
      let out := applyTargets inc effect st' rest
      (out.1, (ab, effect) :: out.2)
    | none => applyTargets inc effect st rest

/-- Source: `ActionProcessor._select_target_states` — the `count` states of
smallest absolute margin, by a stable sort (Python `sorted`). -/
def select_target_states (st : StateMap) (count : ℕ) : List String :=
  ((st.mergeSort (fun a b => decide (|a.2.margin| ≤ |b.2.margin|))).take count).map
    (fun p => p.1)

/-- Source: `ActionProcessor._execute_targeted_action` — auto-selects targets
when none are supplied, truncates the list to the action's target count,
deducts the cost, applies the momentum delta, and applies
`base_support_change × momentum_modifier` to the recognized targets. -/
def execute_targeted_action (gs : GameState) (inc : Bool)
    (defn : ActionDefinition) (target_states : List String) :
    GameState × ActionResult :=
  let player := if inc then gs.incumbent else gs.challenger
  let targets0 := if target_states.isEmpty
    then select_target_states gs.states defn.target_states
    else target_states
  let targets := targets0.take defn.target_states
  let new_player := player.update (-defn.cost) defn.momentum_change
  let effect := defn.base_support_change * player.momentum_modifier
  let applied := applyTargets inc effect gs.states targets
  let new_gs := { gs with
    incumbent := if inc then new_player else gs.incumbent
    challenger := if inc then gs.challenger else new_player
    states := applied.1 }
  (new_gs,
   ⟨defn.action_type, true, "Targeted action boosted support",
    defn.cost, 0, applied.2, defn.momentum_change, targets⟩)

/-- Source: `ActionProcessor._execute_national_action` — deducts the cost,
applies `base_support_change × momentum_modifier × 0.5` to the acting
player's own support in every state. -/
def execute_national_action (gs : GameState) (inc : Bool)
    (defn : ActionDefinition) : GameState × ActionResult :=
  let player := if inc then gs.incumbent else gs.challenger
  let new_player := player.update (-defn.cost) defn.momentum_change
  let effect := defn.base_support_change * player.momentum_modifier * (1/2)
  let new_states : StateMap := gs.states.map (fun p =>
    (p.1, if inc then p.2.apply_support_change effect 0
          else p.2.apply_support_change 0 effect))
  let support_changes := gs.states.map (fun p => (p.1, effect))
  let new_gs := { gs with
    incumbent := if inc then new_player else gs.incumbent
    challenger := if inc then gs.challenger else new_player
    states := new_states }
  (new_gs,
   ⟨defn.action_type, true, "National action boosted support",
    defn.cost, 0, support_changes, defn.momentum_change,
    gs.states.map (fun p => p.1)⟩)

/-- Source: `ActionProcessor.execute_action`.  `target_states = []` models
Python's `None`/empty list (both are falsy there).  The affordability check
comes first; an unaffordable action returns the state unchanged and a
failure result. -/
def execute_action (gs : GameState) (action_type : ActionType) (inc : Bool)
    (target_states : List String) (rng : List ℤ) : ProcOut :=
  let defn := get_action_definition action_type
  let player := if inc then gs.incumbent else gs.challenger
  if ¬ player.can_afford defn.cost then
    ⟨gs, ⟨action_type, false, "Cannot afford action", 0, 0, [], 0, []⟩, rng⟩
  else if action_type = .FUNDRAISER then
    execute_fundraiser gs inc defn rng
  else if action_type = .OPPOSITION_RESEARCH then
    ⟨(execute_opposition_research gs inc defn).1,
     (execute_opposition_research gs inc defn).2, rng⟩
  else if 0 < defn.target_states then
    ⟨(execute_targeted_action gs inc defn target_states).1,
     (execute_targeted_action gs inc defn target_states).2, rng⟩
  else
    ⟨(execute_national_action gs inc defn).1,
     (execute_national_action gs inc defn).2, rng⟩

/-- Source: the state-specific branch of `EventGenerator.apply_event`: apply
the full support change to the affected player in each listed state that is
a key of the map. -/
def applyEventTargets (inc_affected : Bool) (chg : ℚ) :
    StateMap → List String → StateMap
  | st, [] => st
  | st, ab :: rest =>
    match getState st ab with
    | some s =>
      applyEventTargets inc_affected chg
        (setState st ab
          (if inc_affected then s.apply_support_change chg 0
           else s.apply_support_change 0 chg)) rest
    | none => applyEventTargets inc_affected chg st rest

/-- Source: `EventGenerator.apply_event` — adjust the affected player's
momentum; apply half the support change to every state when national, the
full change to the listed states otherwise; append the event to the log. -/
def apply_event (gs : GameState) (e : GameEvent) : GameState :=
  let new_incumbent := if e.affects_incumbent
    then gs.incumbent.adjust_momentum e.momentum_change else gs.incumbent
  let new_challenger := if e.affects_incumbent
    then gs.challenger else gs.challenger.adjust_momentum e.momentum_change
  let new_states : StateMap :=
    if e.is_national then
      gs.states.map (fun p =>
        (p.1, if e.affects_incumbent
              then p.2.apply_support_change (e.support_change * (1/2)) 0
              else p.2.apply_support_change 0 (e.support_change * (1/2))))
    else
      applyEventTargets e.affects_incumbent e.support_change gs.states
        e.affected_states
  { gs with
    incumbent := new_incumbent
    challenger := new_challenger
    states := new_states
    events_log := gs.events_log ++ [e] }

/-- Source: `engine/electoral_calculator.py`, dataclass `ElectionResult`. -/
structure ElectionResult where
  winner : String
  incumbent_evs : ℕ
  challenger_evs : ℕ
  incumbent_popular : ℚ
  challenger_popular : ℚ
  state_results : List (String × String)
  margin : ℤ
  is_landslide : Bool
  deriving Repr, DecidableEq

/-- The per-state loop of `ElectoralCalculator.calculate_final_result`:
strictly higher support wins the state's votes; an exact tie consumes the
next coin flip of the module-level (unseeded) generator's stream, `true`
giving the state to the incumbent. -/
def tallyFinal : List (String × State) → List Bool →
    ℕ × ℕ × List (String × String) × List Bool
  | [], flips => (0, 0, [], flips)
  | (ab, s) :: rest, flips =>
    if s.challenger_support < s.incumbent_support then
      let out := tallyFinal rest flips
      (s.electoral_votes + out.1, out.2.1, (ab, "Incumbent") :: out.2.2.1, out.2.2.2)
    else if s.incumbent_support < s.challenger_support then
      let out := tallyFinal rest flips
      (out.1, s.electoral_votes + out.2.1, (ab, "Challenger") :: out.2.2.1, out.2.2.2)
    else
      let out := tallyFinal rest flips.tail
      if flips.headI then
        (s.electoral_votes + out.1, out.2.1, (ab, "Incumbent") :: out.2.2.1, out.2.2.2)
      else
        (out.1, s.electoral_votes + out.2.1, (ab, "Challenger") :: out.2.2.1, out.2.2.2)

/-- Source: `ElectoralCalculator.calculate_final_result`.  `flips` is the
stream of the coin flips the Python code draws from the module-level
`random` generator, which the engine never seeds. -/
def calculate_final_result (gs : GameState) (flips : List Bool) : ElectionResult :=
  let t := tallyFinal gs.states flips
  let incumbent_evs := t.1
  let challenger_evs := t.2.1
  let total_evs : ℚ := ((gs.states.map (fun p => p.2.electoral_votes)).sum : ℕ)
  let incumbent_popular := round1
    ((gs.states.map
      (fun p => p.2.incumbent_support * (p.2.electoral_votes : ℚ))).sum
      / total_evs)
  let challenger_popular := round1
    ((gs.states.map
      (fun p => p.2.challenger_support * (p.2.electoral_votes : ℚ))).sum
      / total_evs)
  let margin : ℤ := (incumbent_evs : ℤ) - challenger_evs
  let winner :=
    if 270 ≤ incumbent_evs then "Incumbent"
    else if 270 ≤ challenger_evs then "Challenger"
    else if challenger_evs < incumbent_evs then "Incumbent"
    else if incumbent_evs < challenger_evs then "Challenger"
    else "Incumbent"
  ⟨winner, incumbent_evs, challenger_evs, incumbent_popular, challenger_popular,
   t.2.2.1, margin, 100 ≤ |margin|⟩

/-- Source: `ai/ai_opponent.py`, enum `AIStrategy`. -/
inductive AIStrategy where
  | AGGRESSIVE | DEFENSIVE | BALANCED | FUNDRAISING
  deriving Repr, DecidableEq

/-- Source: `AIOpponent._calculate_evs` — per-state strict comparisons. -/
def calculate_evs : List (String × State) → ℕ × ℕ × ℕ
  | [] => (0, 0, 0)
  | (_, s) :: rest =>
    let out := calculate_evs rest
    if s.challenger_support < s.incumbent_support then
      (s.electoral_votes + out.1, out.2.1, out.2.2)
    else if s.incumbent_support < s.challenger_support then
      (out.1, s.electoral_votes + out.2.1, out.2.2)
    else
      (out.1, out.2.1, s.electoral_votes + out.2.2)

/-- Source: `AIOpponent.determine_strategy` — FUNDRAISING below 2M in funds,
otherwise by the electoral-vote difference against the ±30 thresholds. -/
def determine_strategy (gs : GameState) : AIStrategy :=
  if gs.challenger.funds < 2 then .FUNDRAISING
  else
    let evs := calculate_evs gs.states
    let ev_diff : ℤ := (evs.2.1 : ℤ) - evs.1
    if ev_diff ≤ -30 then .AGGRESSIVE
    else if 30 ≤ ev_diff then .DEFENSIVE
    else .BALANCED

/-- Source: `data/states_data.py`, `INITIAL_STATES_CONFIG` /
`create_initial_states` — the shipped 14-entry configuration (`mkRat 97 2`
and `mkRat 95 2` are Michigan's 48.5 and 47.5, written in normal form so the
kernel can evaluate the comparisons that read them). -/
def initial_states : StateMap :=
  [("CA", ⟨"California", "CA", 54, 58, 38, "Safe Inc", "West"⟩),
   ("NY", ⟨"New York", "NY", 28, 56, 40, "Safe Inc", "Northeast"⟩),
   ("IL", ⟨"Illinois", "IL", 19, 55, 41, "Safe Inc", "Midwest"⟩),
   ("BC", ⟨"Blue Coalition", "BC", 127, 52, 44, "Lean Inc", "Multiple"⟩),
   ("FL", ⟨"Florida", "FL", 30, 48, 48, "Tossup", "South"⟩),
   ("PA", ⟨"Pennsylvania", "PA", 19, 49, 47, "Tossup", "Northeast"⟩),
   ("GA", ⟨"Georgia", "GA", 16, 47, 49, "Tossup", "South"⟩),
   ("MI", ⟨"Michigan", "MI", 15, mkRat 97 2, mkRat 95 2, "Tossup", "Midwest"⟩),
   ("AZ", ⟨"Arizona", "AZ", 11, 47, 48, "Tossup", "West"⟩),
   ("WI", ⟨"Wisconsin", "WI", 10, 48, 48, "Tossup", "Midwest"⟩),
   ("OH", ⟨"Ohio", "OH", 17, 44, 52, "Lean Chl", "Midwest"⟩),
   ("NC", ⟨"North Carolina", "NC", 16, 45, 51, "Lean Chl", "South"⟩),
   ("TX", ⟨"Texas", "TX", 40, 42, 54, "Safe Chl", "South"⟩),
   ("RC", ⟨"Red Coalition", "RC", 136, 38, 58, "Safe Chl", "Multiple"⟩)]

/-- Source: `GameEngine.new_game` — fresh players with 15M and momentum 0 on
the shipped state configuration, turn 1 of 20. -/
def new_game (player_name challenger_name : String) : GameState :=
  { incumbent := ⟨player_name, true, 15, 0, true⟩
    challenger := ⟨challenger_name, false, 15, 0, false⟩
    states := initial_states
    current_turn := 1
    max_turns := 20
    events_log := []
    game_over := false
    winner := none }

/-- Source: `GameEngine.end_game` — compute the final result (its tie flips
drawn from the unseeded module-level generator) and store its winner. -/
def engine_end_game (gs : GameState) (flips : List Bool) : GameState :=
  gs.end_game (calculate_final_result gs flips).winner

/-- Source: `GameEngine.get_election_result` — `none` unless the game is over,
otherwise a fresh `calculate_final_result` on the stored state, drawing new
flips from the unseeded module-level generator. -/
def get_election_result (gs : GameState) (flips : List Bool) :
    Option ElectionResult :=
  if gs.game_over then some (calculate_final_result gs flips) else none

/-- The game states an engine can hold after `new_game`: closed under event
application (`start_turn`), action execution (player or AI, any targets, any
draws), turn advancement and finalization. -/
inductive Reachable : GameState → Prop
  | new_game (pn cn : String) : Reachable (new_game pn cn)
  | event {gs : GameState} (e : GameEvent) (h : Reachable gs) :
      Reachable (apply_event gs e)
  | action {gs : GameState} (a : ActionType) (inc : Bool) (tg : List String)
      (rng : List ℤ) (h : Reachable gs) :
      Reachable (execute_action gs a inc tg rng).game
  | advance {gs : GameState} (h : Reachable gs) : Reachable gs.advance_turn
  | finalize {gs : GameState} (flips : List Bool) (h : Reachable gs) :
      Reachable (engine_end_game gs flips)

/-- C1: when the acting player's funds are strictly below the action's cost,
`execute_action` returns the input game state unchanged (so funds, momentum
and every state's support are identical) together with a failure result:
success is false, no funds spent or raised, no support changes, zero
momentum change, and the rng stream is not consumed. -/
theorem execute_action_unaffordable (gs : GameState) (a : ActionType)
    (inc : Bool) (tg : List String) (rng : List ℤ)
    (h : (if inc then gs.incumbent else gs.challenger).funds <
      (get_action_definition a).cost) :
    execute_action gs a inc tg rng =
      ⟨gs, ⟨a, false, "Cannot afford action", 0, 0, [], 0, []⟩, rng⟩ := by
  have hca : ((if inc then gs.incumbent else gs.challenger).can_afford
      (get_action_definition a).cost) = false := by
    simp only [Player.can_afford, decide_eq_false_iff_not, not_le]
    exact h
  unfold execute_action
  simp only [hca]
  simp

/-- Witness for C1: an incumbent with no funds cannot hold a 2M rally; the
state comes back unchanged with a failure result. -/
theorem execute_action_unaffordable_witness :
    execute_action
      { new_game "P" "C" with incumbent := ⟨"P", true, 0, 0, true⟩ }
      .RALLY true [] [] =
      ⟨{ new_game "P" "C" with incumbent := ⟨"P", true, 0, 0, true⟩ },
       ⟨.RALLY, false, "Cannot afford action", 0, 0, [], 0, []⟩, []⟩ :=
  execute_action_unaffordable _ .RALLY true [] [] (by decide)

theorem tallyFinal_sum (sts : List (String × State)) (flips : List Bool) :
    (tallyFinal sts flips).1 + (tallyFinal sts flips).2.1 =
      (sts.map (fun p => p.2.electoral_votes)).sum := by
  induction sts generalizing flips with
  | nil => simp [tallyFinal]
  | cons p rest ih =>
    obtain ⟨ab, s⟩ := p
    simp only [tallyFinal, List.map_cons, List.sum_cons]
    by_cases h1 : s.challenger_support < s.incumbent_support
    · simp only [if_pos h1]
      have := ih flips
      omega
    · simp only [if_neg h1]
      by_cases h2 : s.incumbent_support < s.challenger_support
      · simp only [if_pos h2]
        have := ih flips
        omega
      · simp only [if_neg h2]
        by_cases h3 : flips.headI = true
        · simp only [if_pos h3]
          have := ih flips.tail
          omega
        · simp only [if_neg h3]
          have := ih flips.tail
          omega

/-- C4: in `calculate_final_result` on a 538-vote map, every state's votes go
to exactly one candidate, so the two totals sum to 538; a candidate with at
least 270 votes is declared the winner (in particular a challenger at
exactly 270 wins), and when neither reaches 270 both totals are forced to
269 and the tie goes to the incumbent. -/
theorem calculate_final_result_winner (gs : GameState) (flips : List Bool)
    (h : gs.total_electoral_votes = 538) :
    (calculate_final_result gs flips).incumbent_evs +
      (calculate_final_result gs flips).challenger_evs = 538 ∧
    (270 ≤ (calculate_final_result gs flips).incumbent_evs →
      (calculate_final_result gs flips).winner = "Incumbent") ∧
    (270 ≤ (calculate_final_result gs flips).challenger_evs →
      (calculate_final_result gs flips).winner = "Challenger") ∧
    ((calculate_final_result gs flips).incumbent_evs < 270 →
      (calculate_final_result gs flips).challenger_evs < 270 →
      (calculate_final_result gs flips).incumbent_evs = 269 ∧
      (calculate_final_result gs flips).challenger_evs = 269 ∧
      (calculate_final_result gs flips).winner = "Incumbent") := by
  have hsum := tallyFinal_sum gs.states flips
  have htot : (gs.states.map (fun p => p.2.electoral_votes)).sum = 538 := h
  simp only [calculate_final_result]
  refine ⟨by omega, ?_, ?_, ?_⟩
  · intro hi
    simp only [if_pos hi]
  · intro hc
    simp only [if_neg (show ¬ 270 ≤ (tallyFinal gs.states flips).1 by omega),
      if_pos hc]
  · intro hi hc
    refine ⟨by omega, by omega, ?_⟩
    simp only [if_neg (show ¬ 270 ≤ (tallyFinal gs.states flips).1 by omega),
      if_neg (show ¬ 270 ≤ (tallyFinal gs.states flips).2.1 by omega),
      if_neg (show ¬ (tallyFinal gs.states flips).2.1 <
        (tallyFinal gs.states flips).1 by omega),
      if_neg (show ¬ (tallyFinal gs.states flips).1 <
        (tallyFinal gs.states flips).2.1 by omega)]

/-- Witness for C4: a two-state map (270 + 268 = 538 votes) where the
challenger carries exactly 270: the challenger is declared the winner. -/
theorem calculate_final_result_winner_witness :
    ((calculate_final_result
      { incumbent := ⟨"P", true, 15, 0, true⟩
        challenger := ⟨"C", false, 15, 0, false⟩
        states := [("AA", ⟨"Alpha", "AA", 270, 40, 55, "Safe Chl", "South"⟩),
                   ("BB", ⟨"Beta", "BB", 268, 55, 40, "Safe Inc", "West"⟩)]
        current_turn := 1
        max_turns := 20
        events_log := []
        game_over := false
        winner := none } []).challenger_evs = 270) ∧
    (calculate_final_result
      { incumbent := ⟨"P", true, 15, 0, true⟩
        challenger := ⟨"C", false, 15, 0, false⟩
        states := [("AA", ⟨"Alpha", "AA", 270, 40, 55, "Safe Chl", "South"⟩),
                   ("BB", ⟨"Beta", "BB", 268, 55, 40, "Safe Inc", "West"⟩)]
        current_turn := 1
        max_turns := 20
        events_log := []
        game_over := false
        winner := none } []).winner = "Challenger" := by
  refine ⟨by decide, ?_⟩
  exact (calculate_final_result_winner _ [] (by decide)).2.2.1 (by decide)

theorem calculate_evs_fst (l : List (String × State)) :
    (calculate_evs l).1 =
      ((l.filter (fun p => p.2.challenger_support < p.2.incumbent_support)).map
        (fun p => p.2.electoral_votes)).sum := by
  induction l with
  | nil => simp [calculate_evs]
  | cons p rest ih =>
    obtain ⟨ab, s⟩ := p
    simp only [calculate_evs, List.filter_cons]
    by_cases h1 : s.challenger_support < s.incumbent_support
    · simp [h1, ih]
    · by_cases h2 : s.incumbent_support < s.challenger_support <;>
        simp [h1, h2, ih]

theorem calculate_evs_snd (l : List (String × State)) :
    (calculate_evs l).2.1 =
      ((l.filter (fun p => p.2.incumbent_support < p.2.challenger_support)).map
        (fun p => p.2.electoral_votes)).sum := by
  induction l with
  | nil => simp [calculate_evs]
  | cons p rest ih =>
    obtain ⟨ab, s⟩ := p
    simp only [calculate_evs, List.filter_cons]
    by_cases h1 : s.challenger_support < s.incumbent_support
    · have h2 : ¬ s.incumbent_support < s.challenger_support := by linarith
      simp [h1, h2, ih]
    · by_cases h2 : s.incumbent_support < s.challenger_support <;>
        simp [h1, h2, ih]

theorem calculate_evs_tied (l : List (String × State)) :
    (calculate_evs l).2.2 =
      ((l.filter (fun p => p.2.incumbent_support = p.2.challenger_support)).map
        (fun p => p.2.electoral_votes)).sum := by
  induction l with
  | nil => simp [calculate_evs]
  | cons p rest ih =>
    obtain ⟨ab, s⟩ := p
    simp only [calculate_evs, List.filter_cons]
    rcases lt_trichotomy s.incumbent_support s.challenger_support with h | h | h
    · have h1 : ¬ s.challenger_support < s.incumbent_support := by linarith
      have h3 : ¬ s.incumbent_support = s.challenger_support := by linarith
      simp [h1, h, h3, ih]
    · have h1 : ¬ s.challenger_support < s.incumbent_support := by linarith
      have h2 : ¬ s.incumbent_support < s.challenger_support := by linarith
      simp [h1, h2, h, ih]
    · have h2 : ¬ s.incumbent_support < s.challenger_support := by linarith
      have h3 : ¬ s.incumbent_support = s.challenger_support := by linarith
      simp [h, h2, h3, ih]

/-- C7: `determine_strategy` returns FUNDRAISING whenever the challenger's
funds are strictly below 2M; otherwise, with `ev_diff` the challenger's
electoral votes minus the incumbent's (strict-comparison tallying, stated
here through the game state's derived EV properties), it returns AGGRESSIVE
when `ev_diff ≤ −30`, DEFENSIVE when `ev_diff ≥ 30`, and BALANCED
in between. -/
theorem determine_strategy_spec (gs : GameState) :
    (gs.challenger.funds < 2 → determine_strategy gs = .FUNDRAISING) ∧
    (2 ≤ gs.challenger.funds →
      ((gs.challenger_electoral_votes : ℤ) - gs.incumbent_electoral_votes ≤ -30 →
        determine_strategy gs = .AGGRESSIVE) ∧
      (30 ≤ (gs.challenger_electoral_votes : ℤ) - gs.incumbent_electoral_votes →
        determine_strategy gs = .DEFENSIVE) ∧
      (-30 < (gs.challenger_electoral_votes : ℤ) - gs.incumbent_electoral_votes →
        (gs.challenger_electoral_votes : ℤ) - gs.incumbent_electoral_votes < 30 →
        determine_strategy gs = .BALANCED)) := by
  have hc : (calculate_evs gs.states).2.1 = gs.challenger_electoral_votes :=
    calculate_evs_snd gs.states
  have hi : (calculate_evs gs.states).1 = gs.incumbent_electoral_votes :=
    calculate_evs_fst gs.states
  constructor
  · intro h
    simp only [determine_strategy, if_pos h]
  · intro h
    have hnot : ¬ gs.challenger.funds < 2 := by omega
    refine ⟨?_, ?_, ?_⟩
    · intro hd
      simp only [determine_strategy, if_neg hnot]
      rw [if_pos (by rw [hc, hi]; exact hd)]
    · intro hd
      simp only [determine_strategy, if_neg hnot]
      rw [if_neg (by rw [hc, hi]; omega), if_pos (by rw [hc, hi]; exact hd)]
    · intro hd1 hd2
      simp only [determine_strategy, if_neg hnot]
      rw [if_neg (by rw [hc, hi]; omega), if_neg (by rw [hc, hi]; omega)]

/-- Witness for C7: on a fresh game the challenger has 15M ≥ 2M and leads
276 − 262 = +14 electoral votes on strict comparisons (FL and WI are tied),
so the strategy is BALANCED; and a challenger dropped to 1M funds gets
FUNDRAISING. -/
theorem determine_strategy_spec_witness :
    determine_strategy (new_game "P" "C") = .BALANCED ∧
    determine_strategy
      { new_game "P" "C" with challenger := ⟨"C", false, 1, 0, false⟩ } =
      .FUNDRAISING := by
  constructor
  · exact ((determine_strategy_spec (new_game "P" "C")).2 (by decide)).2.2
      (by decide) (by decide)
  · exact (determine_strategy_spec _).1 (by decide)

/-- The abbreviation keys of a states map, in order. -/
def keys (st : StateMap) : List String := st.map Prod.fst

/-- The (abbreviation, electoral votes) skeleton of a states map: everything
the electoral-vote totals depend on. -/
def evKeys (st : StateMap) : List (String × ℕ) :=
  st.map (fun p => (p.1, p.2.electoral_votes))

theorem apply_support_change_electoral_votes (s : State) (a b : ℚ) :
    (s.apply_support_change a b).electoral_votes = s.electoral_votes := rfl

theorem keys_setState (st : StateMap) (ab : String) (s' : State) :
    keys (setState st ab s') = keys st := by
  unfold keys setState
  rw [List.map_map]
  apply List.map_congr_left
  intro p _
  by_cases h : p.1 = ab <;> simp [Function.comp, h]

theorem keys_evKeys (st : StateMap) : keys st = (evKeys st).map Prod.fst := by
  unfold keys evKeys
  rw [List.map_map]
  rfl

theorem setState_not_mem (st : StateMap) (ab : String) (s' : State)
    (h : ab ∉ keys st) : setState st ab s' = st := by
  induction st with
  | nil => rfl
  | cons p rest ih =>
    simp only [keys, List.map_cons, List.mem_cons, not_or] at h
    obtain ⟨h1, h2⟩ := h
    simp only [setState, List.map_cons]
    rw [if_neg (fun hp => h1 hp.symm)]
    have := ih (by simpa [keys] using h2)
    simp only [setState] at this
    rw [this]

theorem evKeys_setState (st : StateMap) (ab : String) (s s' : State)
    (hl : getState st ab = some s) (hnd : (keys st).Nodup)
    (hev : s'.electoral_votes = s.electoral_votes) :
    evKeys (setState st ab s') = evKeys st := by
  induction st with
  | nil => simp [getState, List.lookup] at hl
  | cons p rest ih =>
    obtain ⟨k, v⟩ := p
    simp only [keys, List.map_cons, List.nodup_cons] at hnd
    obtain ⟨hk, hnd'⟩ := hnd
    by_cases h : k = ab
    · subst h
      have hv : v = s := by
        simpa [getState, List.lookup] using hl
      have hrest : setState rest k s' = rest :=
        setState_not_mem rest k s' (by simpa [keys] using hk)
      calc evKeys (setState ((k, v) :: rest) k s')
          = (k, s'.electoral_votes) :: evKeys (setState rest k s') := by
            simp [setState, evKeys]
        _ = (k, v.electoral_votes) :: evKeys rest := by rw [hrest, hev, hv]
        _ = evKeys ((k, v) :: rest) := by simp [evKeys]
    · have hbeq : (ab == k) = false := by
        simp only [beq_eq_false_iff_ne, ne_eq]
        exact fun hh => h hh.symm
      have hl' : getState rest ab = some s := by
        simpa [getState, List.lookup, hbeq] using hl
      have htail := ih hl' (by simpa [keys] using hnd')
      calc evKeys (setState ((k, v) :: rest) ab s')
          = (k, v.electoral_votes) :: evKeys (setState rest ab s') := by
            simp [setState, evKeys, h]
        _ = (k, v.electoral_votes) :: evKeys rest := by rw [htail]
        _ = evKeys ((k, v) :: rest) := by simp [evKeys]

theorem evKeys_map_pointwise (st : StateMap) (f : String × State → State)
    (hf : ∀ p, (f p).electoral_votes = p.2.electoral_votes) :
    evKeys (st.map (fun p => (p.1, f p))) = evKeys st := by
  unfold evKeys
  rw [List.map_map]
  apply List.map_congr_left
  intro p _
  simp [Function.comp, hf]

theorem applyTargets_evKeys (inc : Bool) (eff : ℚ) (ts : List String)
    (st : StateMap) (hnd : (keys st).Nodup) :
    evKeys (applyTargets inc eff st ts).1 = evKeys st := by
  induction ts generalizing st with
  | nil => rfl
  | cons ab rest ih =>
    simp only [applyTargets]
    cases h : getState st ab with
    | none => exact ih st hnd
    | some s =>
      dsimp only
      have hset : evKeys (setState st ab
          (if inc then s.apply_support_change eff 0
           else s.apply_support_change 0 eff)) = evKeys st :=
        evKeys_setState st ab s _ h hnd (by cases inc <;> rfl)
      have hkeys : keys (setState st ab
          (if inc then s.apply_support_change eff 0
           else s.apply_support_change 0 eff)) = keys st :=
        keys_setState st ab _
      rw [ih _ (by rw [hkeys]; exact hnd), hset]

theorem applyEventTargets_evKeys (incb : Bool) (chg : ℚ) (ts : List String)
    (st : StateMap) (hnd : (keys st).Nodup) :
    evKeys (applyEventTargets incb chg st ts) = evKeys st := by
  induction ts generalizing st with
  | nil => rfl
  | cons ab rest ih =>
    simp only [applyEventTargets]
    cases h : getState st ab with
    | none => exact ih st hnd
    | some s =>
      dsimp only
      have hset : evKeys (setState st ab
          (if incb then s.apply_support_change chg 0
           else s.apply_support_change 0 chg)) = evKeys st :=
        evKeys_setState st ab s _ h hnd (by cases incb <;> rfl)
      have hkeys : keys (setState st ab
          (if incb then s.apply_support_change chg 0
           else s.apply_support_change 0 chg)) = keys st :=
        keys_setState st ab _
      rw [ih _ (by rw [hkeys]; exact hnd), hset]

theorem execute_opposition_research_states (gs : GameState) (inc : Bool)
    (defn : ActionDefinition) :
    (execute_opposition_research gs inc defn).1.states =
      gs.states.map (fun p =>
        (p.1, if inc
          then p.2.apply_support_change 0
            (defn.base_support_change *
              (if inc then gs.incumbent else gs.challenger).momentum_modifier)
          else p.2.apply_support_change
            (defn.base_support_change *
              (if inc then gs.incumbent else gs.challenger).momentum_modifier) 0)) := rfl

theorem execute_national_action_states (gs : GameState) (inc : Bool)
    (defn : ActionDefinition) :
    (execute_national_action gs inc defn).1.states =
      gs.states.map (fun p =>
        (p.1, if inc
          then p.2.apply_support_change
            (defn.base_support_change *
              (if inc then gs.incumbent else gs.challenger).momentum_modifier * (1/2)) 0
          else p.2.apply_support_change 0
            (defn.base_support_change *
              (if inc then gs.incumbent else gs.challenger).momentum_modifier * (1/2)))) := rfl

theorem execute_targeted_action_states (gs : GameState) (inc : Bool)
    (defn : ActionDefinition) (tg : List String) :
    (execute_targeted_action gs inc defn tg).1.states =
      (applyTargets inc
        (defn.base_support_change *
          (if inc then gs.incumbent else gs.challenger).momentum_modifier)
        gs.states
        ((if tg.isEmpty then select_target_states gs.states defn.target_states
          else tg).take defn.target_states)).1 := rfl

theorem execute_action_evKeys (gs : GameState) (a : ActionType) (inc : Bool)
    (tg : List String) (rng : List ℤ) (hnd : (keys gs.states).Nodup) :
    evKeys (execute_action gs a inc tg rng).game.states = evKeys gs.states := by
  simp only [execute_action]
  by_cases hca : ((if inc then gs.incumbent else gs.challenger).can_afford
      (get_action_definition a).cost) = true
  · rw [if_neg (by simp [hca])]
    by_cases ha1 : a = .FUNDRAISER
    · rw [if_pos ha1]
      rfl
    · rw [if_neg ha1]
      by_cases ha2 : a = .OPPOSITION_RESEARCH
      · rw [if_pos ha2]
        dsimp only
        rw [execute_opposition_research_states]
        exact evKeys_map_pointwise _ _ (fun p => by cases inc <;> rfl)
      · rw [if_neg ha2]
        by_cases ht : 0 < (get_action_definition a).target_states
        · rw [if_pos ht]
          dsimp only
          rw [execute_targeted_action_states]
          exact applyTargets_evKeys _ _ _ _ hnd
        · rw [if_neg ht]
          dsimp only
          rw [execute_national_action_states]
          exact evKeys_map_pointwise _ _ (fun p => by cases inc <;> rfl)
  · rw [if_pos (by simp [hca])]

theorem apply_event_evKeys (gs : GameState) (e : GameEvent)
    (hnd : (keys gs.states).Nodup) :
    evKeys (apply_event gs e).states = evKeys gs.states := by
  unfold apply_event
  dsimp only
  by_cases h1 : e.is_national = true
  · rw [if_pos h1]
    exact evKeys_map_pointwise _ _ (fun p => by cases e.affects_incumbent <;> rfl)
  · rw [if_neg h1]
    exact applyEventTargets_evKeys _ _ _ _ hnd

theorem reachable_evKeys (gs : GameState) (h : Reachable gs) :
    evKeys gs.states = evKeys initial_states := by
  induction h with
  | new_game pn cn => rfl
  | event e h ih =>
    rw [apply_event_evKeys _ _ (by rw [keys_evKeys, ih]; decide), ih]
  | action a inc tg rng h ih =>
    rw [execute_action_evKeys _ _ _ _ _ (by rw [keys_evKeys, ih]; decide), ih]
  | advance h ih => exact ih
  | finalize flips h ih => exact ih

theorem calculate_evs_total (l : List (String × State)) :
    (calculate_evs l).1 + (calculate_evs l).2.1 + (calculate_evs l).2.2 =
      (l.map (fun p => p.2.electoral_votes)).sum := by
  induction l with
  | nil => simp [calculate_evs]
  | cons p rest ih =>
    obtain ⟨ab, s⟩ := p
    simp only [calculate_evs, List.map_cons, List.sum_cons]
    by_cases h1 : s.challenger_support < s.incumbent_support
    · simp only [if_pos h1]; omega
    · simp only [if_neg h1]
      by_cases h2 : s.incumbent_support < s.challenger_support
      · simp only [if_pos h2]; omega
      · simp only [if_neg h2]; omega

/-- C5: in every game state reachable from the engine's `new_game` (the
shipped 14-state configuration), the electoral votes across all states sum
to 538 — no engine operation changes any state's `electoral_votes` — and
that total always equals the sum of the derived incumbent, challenger and
tied electoral-vote properties. -/
theorem reachable_total_evs (gs : GameState) (h : Reachable gs) :
    gs.total_electoral_votes = 538 ∧
    gs.incumbent_electoral_votes + gs.challenger_electoral_votes +
      gs.tied_electoral_votes = 538 := by
  have hk := reachable_evKeys gs h
  have htot : gs.total_electoral_votes = 538 := by
    have : gs.total_electoral_votes = ((evKeys gs.states).map Prod.snd).sum := by
      unfold GameState.total_electoral_votes evKeys
      rw [List.map_map]
      rfl
    rw [this, hk]
    decide
  refine ⟨htot, ?_⟩
  have hpart := calculate_evs_total gs.states
  rw [calculate_evs_fst, calculate_evs_snd, calculate_evs_tied] at hpart
  have : gs.incumbent_electoral_votes + gs.challenger_electoral_votes +
      gs.tied_electoral_votes = gs.total_electoral_votes := hpart
  omega

/-- Witness for C5: the freshly created game is reachable, so its electoral
votes total 538 and the three derived tallies partition that total. -/
theorem reachable_total_evs_witness :
    (new_game "P" "C").total_electoral_votes = 538 ∧
    (new_game "P" "C").incumbent_electoral_votes +
      (new_game "P" "C").challenger_electoral_votes +
      (new_game "P" "C").tied_electoral_votes = 538 :=
  reachable_total_evs _ (Reachable.new_game "P" "C")

theorem execute_opposition_research_result (gs : GameState) (inc : Bool)
    (defn : ActionDefinition) :
    (execute_opposition_research gs inc defn).2 =
      ⟨.OPPOSITION_RESEARCH, true, "Opposition research damages opponent",
       defn.cost, 0,
       gs.states.map (fun p => (p.1, defn.base_support_change *
         (if inc then gs.incumbent else gs.challenger).momentum_modifier)),
       defn.momentum_change, gs.states.map (fun p => p.1)⟩ := rfl

theorem execute_opposition_research_player (gs : GameState) (inc : Bool)
    (defn : ActionDefinition) :
    (if inc then (execute_opposition_research gs inc defn).1.incumbent
     else (execute_opposition_research gs inc defn).1.challenger) =
      ((if inc then gs.incumbent else gs.challenger).update (-defn.cost)
        defn.momentum_change) := by
  cases inc <;> rfl

/-- C6: an affordable Opposition Research deducts its 3M cost, leaves the
actor's momentum unchanged (a zero momentum delta, with momentum in its
legal range), and applies effect = base_support_change × momentum_modifier
to the opponent's support in every state, recording that delta for all
states; with actor momentum 0 the effect is exactly −2.5. -/
theorem opposition_research_spec (gs : GameState) (inc : Bool)
    (tg : List String) (rng : List ℤ)
    (hf : 3 ≤ (if inc then gs.incumbent else gs.challenger).funds)
    (hm1 : -100 ≤ (if inc then gs.incumbent else gs.challenger).momentum)
    (hm2 : (if inc then gs.incumbent else gs.challenger).momentum ≤ 100) :
    (execute_action gs .OPPOSITION_RESEARCH inc tg rng).result.success = true ∧
    (execute_action gs .OPPOSITION_RESEARCH inc tg rng).result.funds_spent = 3 ∧
    (if inc then (execute_action gs .OPPOSITION_RESEARCH inc tg rng).game.incumbent
     else (execute_action gs .OPPOSITION_RESEARCH inc tg rng).game.challenger).funds =
      (if inc then gs.incumbent else gs.challenger).funds - 3 ∧
    (if inc then (execute_action gs .OPPOSITION_RESEARCH inc tg rng).game.incumbent
     else (execute_action gs .OPPOSITION_RESEARCH inc tg rng).game.challenger).momentum =
      (if inc then gs.incumbent else gs.challenger).momentum ∧
    (execute_action gs .OPPOSITION_RESEARCH inc tg rng).result.momentum_change = 0 ∧
    (execute_action gs .OPPOSITION_RESEARCH inc tg rng).game.states =
      gs.states.map (fun p =>
        (p.1, if inc
          then p.2.apply_support_change 0
            ((get_action_definition .OPPOSITION_RESEARCH).base_support_change *
              (if inc then gs.incumbent else gs.challenger).momentum_modifier)
          else p.2.apply_support_change
            ((get_action_definition .OPPOSITION_RESEARCH).base_support_change *
              (if inc then gs.incumbent else gs.challenger).momentum_modifier) 0)) ∧
    (execute_action gs .OPPOSITION_RESEARCH inc tg rng).result.support_changes =
      gs.states.map (fun p =>
        (p.1, (get_action_definition .OPPOSITION_RESEARCH).base_support_change *
          (if inc then gs.incumbent else gs.challenger).momentum_modifier)) ∧
    ((if inc then gs.incumbent else gs.challenger).momentum = 0 →
      (get_action_definition .OPPOSITION_RESEARCH).base_support_change *
        (if inc then gs.incumbent else gs.challenger).momentum_modifier = -(5/2)) := by
  have hca : ((if inc then gs.incumbent else gs.challenger).can_afford
      (get_action_definition .OPPOSITION_RESEARCH).cost) = true := by
    simp only [Player.can_afford, decide_eq_true_eq]
    exact hf
  have hred : execute_action gs .OPPOSITION_RESEARCH inc tg rng =
      ⟨(execute_opposition_research gs inc
          (get_action_definition .OPPOSITION_RESEARCH)).1,
       (execute_opposition_research gs inc
          (get_action_definition .OPPOSITION_RESEARCH)).2, rng⟩ := by
    simp only [execute_action]
    rw [if_neg (by simp [hca]), if_neg (by decide), if_pos trivial]
  rw [hred]
  dsimp only
  rw [execute_opposition_research_result]
  refine ⟨rfl, rfl, ?_, ?_, rfl, execute_opposition_research_states gs inc _, rfl, ?_⟩
  · have := execute_opposition_research_player gs inc
      (get_action_definition .OPPOSITION_RESEARCH)
    rw [this]
    simp only [Player.update]
    have : (get_action_definition ActionType.OPPOSITION_RESEARCH).cost = 3 := rfl
    rw [this]
    omega
  · have := execute_opposition_research_player gs inc
      (get_action_definition .OPPOSITION_RESEARCH)
    rw [this]
    simp only [Player.update]
    have : (get_action_definition ActionType.OPPOSITION_RESEARCH).momentum_change
        = 0 := rfl
    rw [this]
    omega
  · intro h0
    simp only [Player.momentum_modifier, h0]
    norm_num [get_action_definition, Rat.mkRat_eq_div]

/-- Witness for C6: the incumbent on a fresh game (15M funds, momentum 0) runs
Opposition Research; the theorem's hypotheses all hold there. -/
theorem opposition_research_spec_witness :
    (execute_action (new_game "P" "C") .OPPOSITION_RESEARCH true [] []).result.success
      = true ∧
    (if true
     then (execute_action (new_game "P" "C") .OPPOSITION_RESEARCH true [] []).game.incumbent
     else (execute_action (new_game "P" "C") .OPPOSITION_RESEARCH true [] []).game.challenger).funds =
      (if true then (new_game "P" "C").incumbent else (new_game "P" "C").challenger).funds - 3 ∧
    ((if true then (new_game "P" "C").incumbent else (new_game "P" "C").challenger).momentum = 0 →
      (get_action_definition .OPPOSITION_RESEARCH).base_support_change *
        (if true then (new_game "P" "C").incumbent
         else (new_game "P" "C").challenger).momentum_modifier = -(5/2)) := by
  have h := opposition_research_spec (new_game "P" "C") true [] []
    (by decide) (by decide) (by decide)
  exact ⟨h.1, h.2.2.1, h.2.2.2.2.2.2.2⟩

/-- No state of the game is exactly tied, so finalization draws no coin flip. -/
def no_tied_states (gs : GameState) : Prop :=
  ∀ p ∈ gs.states, p.2.incumbent_support ≠ p.2.challenger_support

theorem tallyFinal_flips_congr (sts : List (String × State))
    (h : ∀ p ∈ sts, p.2.incumbent_support ≠ p.2.challenger_support)
    (f f' : List Bool) :
    (tallyFinal sts f).1 = (tallyFinal sts f').1 ∧
    (tallyFinal sts f).2.1 = (tallyFinal sts f').2.1 ∧
    (tallyFinal sts f).2.2.1 = (tallyFinal sts f').2.2.1 := by
  induction sts generalizing f f' with
  | nil => exact ⟨rfl, rfl, rfl⟩
  | cons p rest ih =>
    obtain ⟨ab, s⟩ := p
    have hne := h (ab, s) (List.mem_cons_self _ _)
    have hrest : ∀ q ∈ rest, q.2.incumbent_support ≠ q.2.challenger_support :=
      fun q hq => h q (List.mem_cons_of_mem _ hq)
    obtain ⟨i1, i2, i3⟩ := ih hrest f f'
    simp only [tallyFinal]
    rcases lt_trichotomy s.incumbent_support s.challenger_support with hc | hc | hc
    · rw [if_neg (by linarith), if_pos hc, if_neg (by linarith), if_pos hc]
      exact ⟨by rw [i1], by rw [i2], by rw [i3]⟩
    · exact absurd hc hne
    · rw [if_pos hc, if_pos hc]
      exact ⟨by rw [i1], by rw [i2], by rw [i3]⟩

theorem final_result_flips_congr (gs : GameState) (f f' : List Bool)
    (h : ∀ p ∈ gs.states, p.2.incumbent_support ≠ p.2.challenger_support) :
    calculate_final_result gs f = calculate_final_result gs f' := by
  obtain ⟨i1, i2, i3⟩ := tallyFinal_flips_congr gs.states h f f'
  simp only [calculate_final_result]
  rw [i1, i2, i3]

/-- C3 (amended): the engine's seeded generators make the trajectory a
function of the seed and the call sequence, but the coin flips that resolve
exactly-tied states in `calculate_final_result` come from the unseeded
module-level generator; when no state is tied the final `ElectionResult`
does not depend on that stream at all, so identically-seeded engines then
agree on it. -/
theorem calculate_final_result_flip_independent (gs : GameState)
    (f f' : List Bool) (h : no_tied_states gs) :
    calculate_final_result gs f = calculate_final_result gs f' :=
  final_result_flips_congr gs f f' (fun p hp => h p hp)

/-- Witness for C3: a two-state game with no tied state; the final result is
the same whatever the unseeded tie-break stream supplies. -/
theorem calculate_final_result_flip_independent_witness :
    calculate_final_result
      { incumbent := ⟨"P", true, 15, 0, true⟩
        challenger := ⟨"C", false, 15, 0, false⟩
        states := [("AA", ⟨"Alpha", "AA", 300, 52, 44, "Lean Inc", "West"⟩),
                   ("BB", ⟨"Beta", "BB", 238, 44, 52, "Lean Chl", "South"⟩)]
        current_turn := 1
        max_turns := 20
        events_log := []
        game_over := false
        winner := none } [true, true] =
    calculate_final_result
      { incumbent := ⟨"P", true, 15, 0, true⟩
        challenger := ⟨"C", false, 15, 0, false⟩
        states := [("AA", ⟨"Alpha", "AA", 300, 52, 44, "Lean Inc", "West"⟩),
                   ("BB", ⟨"Beta", "BB", 238, 44, 52, "Lean Chl", "South"⟩)]
        current_turn := 1
        max_turns := 20
        events_log := []
        game_over := false
        winner := none } [false, false] :=
  calculate_final_result_flip_independent _ _ _ (by unfold no_tied_states; decide)

/-- Counterexample to C3 as stated: the shipped configuration starts with
Florida and Wisconsin exactly tied, and the finalization coin flips come
from the unseeded module-level generator, not from the engine seed; two
identically-seeded engines that immediately finalize can therefore declare
different winners depending on that generator's draws. -/
theorem seeded_determinism_counterexample :
    (calculate_final_result (new_game "P" "C") [true, true]).winner
      = "Incumbent" ∧
    (calculate_final_result (new_game "P" "C") [false, false]).winner
      = "Challenger" ∧
    (calculate_final_result (new_game "P" "C") [true, true]).winner ≠
      (calculate_final_result (new_game "P" "C") [false, false]).winner := by
  exact ⟨by decide, by decide, by decide⟩

/-- C10: `get_election_result` recomputes the election from the stored final
state with fresh unseeded coin flips instead of returning the outcome
recorded by `end_game`; when no state is exactly tied the recomputed result
is flip-independent and its winner matches the stored `GameState.winner`,
while on the shipped start (Florida and Wisconsin tied) the two can
disagree. -/
theorem get_election_result_recomputes (gs : GameState) (f f' : List Bool)
    (h : no_tied_states gs) :
    (get_election_result (engine_end_game gs f) f' =
      some (calculate_final_result gs f') ∧
    (engine_end_game gs f).winner = some (calculate_final_result gs f').winner) ∧
    (∃ gs₀ f₀ f₀' r, get_election_result (engine_end_game gs₀ f₀) f₀' = some r ∧
      (engine_end_game gs₀ f₀).winner ≠ some r.winner) := by
  constructor
  · constructor
    · show (if (engine_end_game gs f).game_over then
        some (calculate_final_result (engine_end_game gs f) f') else none) = _
      have hov : (engine_end_game gs f).game_over = true := rfl
      rw [if_pos hov]
      rfl
    · show some (calculate_final_result gs f).winner = _
      rw [final_result_flips_congr gs f f' (fun p hp => h p hp)]
  · refine ⟨new_game "P" "C", [true, true], [false, false],
      calculate_final_result (new_game "P" "C") [false, false], rfl, ?_⟩
    decide

/-- Witness for C10: on the tie-free two-state final board, the recomputed
result is the stored one whatever flips are drawn. -/
theorem get_election_result_recomputes_witness :
    (get_election_result
      (engine_end_game
        { incumbent := ⟨"P", true, 15, 0, true⟩
          challenger := ⟨"C", false, 15, 0, false⟩
          states := [("AA", ⟨"Alpha", "AA", 300, 52, 44, "Lean Inc", "West"⟩),
                     ("BB", ⟨"Beta", "BB", 238, 44, 52, "Lean Chl", "South"⟩)]
          current_turn := 20
          max_turns := 20
          events_log := []
          game_over := false
          winner := none } [true]) [false] =
      some (calculate_final_result
        { incumbent := ⟨"P", true, 15, 0, true⟩
          challenger := ⟨"C", false, 15, 0, false⟩
          states := [("AA", ⟨"Alpha", "AA", 300, 52, 44, "Lean Inc", "West"⟩),
                     ("BB", ⟨"Beta", "BB", 238, 44, 52, "Lean Chl", "South"⟩)]
          current_turn := 20
          max_turns := 20
          events_log := []
          game_over := false
          winner := none } [false])) :=
  ((get_election_result_recomputes _ [true] [false]
    (by unfold no_tied_states; decide)).1).1

theorem clamp100_eq {x : ℚ} (h0 : 0 ≤ x) (h1 : x ≤ 100) : clamp100 x = x := by
  unfold clamp100
  rw [min_eq_right h1, max_eq_right h0]

theorem calculate_lean_congr (m m' : ℚ) (h15 : 15 ≤ m ↔ 15 ≤ m')
    (h5 : 5 ≤ m ↔ 5 ≤ m') (hm5 : -5 < m ↔ -5 < m')
    (hm15 : -15 < m ↔ -15 < m') :
    calculate_lean m = calculate_lean m' := by
  unfold calculate_lean
  by_cases c1 : 15 ≤ m
  · rw [if_pos c1, if_pos (h15.1 c1)]
  · rw [if_neg c1, if_neg (fun hh => c1 (h15.2 hh))]
    by_cases c2 : 5 ≤ m
    · rw [if_pos c2, if_pos (h5.1 c2)]
    · rw [if_neg c2, if_neg (fun hh => c2 (h5.2 hh))]
      by_cases c3 : -5 < m
      · rw [if_pos c3, if_pos (hm5.1 c3)]
      · rw [if_neg c3, if_neg (fun hh => c3 (hm5.2 hh))]
        by_cases c4 : -15 < m
        · rw [if_pos c4, if_pos (hm15.1 c4)]
        · rw [if_neg c4, if_neg (fun hh => c4 (hm15.2 hh))]

/-- The pre-rounding margin lies more than a rounding step away from each of
the four lean thresholds, so rounding the stored supports cannot move the
margin across any of them. -/
def far_from_thresholds (m : ℚ) : Prop :=
  (m ≤ 15 - 11/100 ∨ 15 + 1/10 ≤ m) ∧
  (m ≤ 5 - 11/100 ∨ 5 + 1/10 ≤ m) ∧
  (m ≤ -5 - 1/10 ∨ -5 + 11/100 ≤ m) ∧
  (m ≤ -15 - 1/10 ∨ -15 + 11/100 ≤ m)

/-- C8 (amended): the stored `lean` of `apply_support_change` is the lean
function of the pre-rounding margin — the clamped, rescaled supports before
each side is rounded to one decimal — and it equals the lean of the stored
(rounded) margin whenever the pre-rounding margin is far from every
threshold; at a threshold the final rounding can shift the stored margin
across it, so the two can differ. -/
theorem apply_support_change_lean_spec (s : State) (ic cc : ℚ)
    (h : far_from_thresholds
      ((rescale (clamp100 (s.incumbent_support + ic))
        (clamp100 (s.challenger_support + cc))).1 -
       (rescale (clamp100 (s.incumbent_support + ic))
        (clamp100 (s.challenger_support + cc))).2)) :
    (s.apply_support_change ic cc).lean =
      calculate_lean
        ((rescale (clamp100 (s.incumbent_support + ic))
          (clamp100 (s.challenger_support + cc))).1 -
         (rescale (clamp100 (s.incumbent_support + ic))
          (clamp100 (s.challenger_support + cc))).2) ∧
    (s.apply_support_change ic cc).lean =
      calculate_lean ((s.apply_support_change ic cc).incumbent_support -
        (s.apply_support_change ic cc).challenger_support) := by
  constructor
  · rfl
  · show calculate_lean
      ((rescale (clamp100 (s.incumbent_support + ic))
        (clamp100 (s.challenger_support + cc))).1 -
       (rescale (clamp100 (s.incumbent_support + ic))
        (clamp100 (s.challenger_support + cc))).2) =
      calculate_lean
        (round1 (rescale (clamp100 (s.incumbent_support + ic))
          (clamp100 (s.challenger_support + cc))).1 -
         round1 (rescale (clamp100 (s.incumbent_support + ic))
          (clamp100 (s.challenger_support + cc))).2)
    obtain ⟨f1, f2, f3, f4⟩ := h
    have hub : round1 (rescale (clamp100 (s.incumbent_support + ic))
        (clamp100 (s.challenger_support + cc))).1 -
        round1 (rescale (clamp100 (s.incumbent_support + ic))
          (clamp100 (s.challenger_support + cc))).2 <
        ((rescale (clamp100 (s.incumbent_support + ic))
          (clamp100 (s.challenger_support + cc))).1 -
         (rescale (clamp100 (s.incumbent_support + ic))
          (clamp100 (s.challenger_support + cc))).2) + 1/10 := by
      have h1 := round1_le (rescale (clamp100 (s.incumbent_support + ic))
        (clamp100 (s.challenger_support + cc))).1
      have h2 := lt_round1 (rescale (clamp100 (s.incumbent_support + ic))
        (clamp100 (s.challenger_support + cc))).2
      linarith
    have hlb : ((rescale (clamp100 (s.incumbent_support + ic))
        (clamp100 (s.challenger_support + cc))).1 -
        (rescale (clamp100 (s.incumbent_support + ic))
          (clamp100 (s.challenger_support + cc))).2) - 1/10 <
        round1 (rescale (clamp100 (s.incumbent_support + ic))
          (clamp100 (s.challenger_support + cc))).1 -
        round1 (rescale (clamp100 (s.incumbent_support + ic))
          (clamp100 (s.challenger_support + cc))).2 := by
      have h1 := lt_round1 (rescale (clamp100 (s.incumbent_support + ic))
        (clamp100 (s.challenger_support + cc))).1
      have h2 := round1_le (rescale (clamp100 (s.incumbent_support + ic))
        (clamp100 (s.challenger_support + cc))).2
      linarith
    apply calculate_lean_congr
    · constructor
      · intro hm
        rcases f1 with hf | hf
        · linarith
        · linarith
      · intro hm
        rcases f1 with hf | hf
        · linarith
        · linarith
    · constructor
      · intro hm
        rcases f2 with hf | hf
        · linarith
        · linarith
      · intro hm
        rcases f2 with hf | hf
        · linarith
        · linarith
    · constructor
      · intro hm
        rcases f3 with hf | hf
        · linarith
        · linarith
      · intro hm
        rcases f3 with hf | hf
        · linarith
        · linarith
    · constructor
      · intro hm
        rcases f4 with hf | hf
        · linarith
        · linarith
      · intro hm
        rcases f4 with hf | hf
        · linarith
        · linarith

/-- Witness for C8: a tossup state at 48–48 hit by an incumbent change of +3
has pre-rounding margin 3, far from every threshold, and the stored lean
agrees with the lean of the stored margin. -/
theorem apply_support_change_lean_spec_witness :
    ((⟨"Testland", "TS", 10, 48, 48, "Tossup", "South"⟩ : State).apply_support_change
        3 0).lean =
      calculate_lean
        (((⟨"Testland", "TS", 10, 48, 48, "Tossup", "South"⟩ : State).apply_support_change
            3 0).incumbent_support -
         ((⟨"Testland", "TS", 10, 48, 48, "Tossup", "South"⟩ : State).apply_support_change
            3 0).challenger_support) := by
  have hfar : far_from_thresholds
      ((rescale (clamp100 ((48:ℚ) + 3)) (clamp100 ((48:ℚ) + 0))).1 -
       (rescale (clamp100 ((48:ℚ) + 3)) (clamp100 ((48:ℚ) + 0))).2) := by
    have e1 : clamp100 ((48:ℚ) + 3) = 51 := by
      rw [show (48:ℚ) + 3 = 51 by norm_num]
      exact clamp100_eq (by norm_num) (by norm_num)
    have e2 : clamp100 ((48:ℚ) + 0) = 48 := by
      rw [add_zero]
      exact clamp100_eq (by norm_num) (by norm_num)
    have e3 : rescale (51:ℚ) 48 = (51, 48) := by
      unfold rescale
      rw [if_neg (by norm_num)]
    rw [e1, e2, e3]
    unfold far_from_thresholds
    norm_num
  exact (apply_support_change_lean_spec
    ⟨"Testland", "TS", 10, 48, 48, "Tossup", "South"⟩ 3 0 hfar).2

/-- Counterexample to C8 as stated: a state at 54.3–42.5 hit by an incumbent
change of +3.165 (a rally at momentum 11) has pre-rounding margin 14.965,
so the code stores lean "Lean Inc", but the stored supports round to
57.5–42.5 with margin exactly 15, whose lean function value is "Safe Inc":
the stored lean is not a function of the stored margin. -/
theorem lean_stored_margin_counterexample :
    ((⟨"Testland", "TS", 10, 54.3, 42.5, "Lean Inc", "West"⟩ : State).apply_support_change
        3.165 0).lean ≠
      calculate_lean
        (((⟨"Testland", "TS", 10, 54.3, 42.5, "Lean Inc", "West"⟩ : State).apply_support_change
            3.165 0).incumbent_support -
         ((⟨"Testland", "TS", 10, 54.3, 42.5, "Lean Inc", "West"⟩ : State).apply_support_change
            3.165 0).challenger_support) := by
  have e1 : clamp100 ((54.3:ℚ) + 3.165) = 57.465 := by
    rw [show (54.3:ℚ) + 3.165 = 57.465 by norm_num]
    exact clamp100_eq (by norm_num) (by norm_num)
  have e2 : clamp100 ((42.5:ℚ) + 0) = 42.5 := by
    rw [add_zero]
    exact clamp100_eq (by norm_num) (by norm_num)
  have e3 : rescale (57.465:ℚ) 42.5 = (57.465, 42.5) := by
    unfold rescale
    rw [if_neg (by norm_num)]
  have e4 : round1 (57.465:ℚ) = 57.5 := by
    unfold round1
    rw [round_eq]
    norm_num
  have e5 : round1 (42.5:ℚ) = 42.5 := by
    unfold round1
    rw [round_eq]
    norm_num
  have happ : ((⟨"Testland", "TS", 10, 54.3, 42.5, "Lean Inc", "West"⟩ : State).apply_support_change
      3.165 0) =
      ⟨"Testland", "TS", 10, 57.5, 42.5,
        calculate_lean ((57.465:ℚ) - 42.5), "West"⟩ := by
    unfold State.apply_support_change
    dsimp only
    rw [e1, e2, e3]
    dsimp only
    rw [e4, e5]
  rw [happ]
  dsimp only
  rw [show (57.5:ℚ) - 42.5 = 15 by norm_num]
  rw [show calculate_lean ((57.465:ℚ) - 42.5) = "Lean Inc" by
    unfold calculate_lean
    rw [if_neg (by norm_num), if_pos (by norm_num)]]
  rw [show calculate_lean (15:ℚ) = "Safe Inc" by
    unfold calculate_lean
    rw [if_pos (by norm_num)]]
  decide

theorem getState_setState_isSome (st : StateMap) (ab : String) (s' : State)
    (x : String) :
    (getState (setState st ab s') x).isSome = (getState st x).isSome := by
  induction st with
  | nil => rfl
  | cons p rest ih =>
    obtain ⟨k, v⟩ := p
    by_cases h : k = ab
    · simp only [setState, List.map_cons, if_pos h]
      cases hx : (x == k)
      · show (List.lookup x ((k, s') :: _)).isSome = (List.lookup x ((k, v) :: rest)).isSome
        simp only [List.lookup, hx]
        exact ih
      · show (List.lookup x ((k, s') :: _)).isSome = (List.lookup x ((k, v) :: rest)).isSome
        simp only [List.lookup, hx]
        rfl
    · simp only [setState, List.map_cons, if_neg h]
      cases hx : (x == k)
      · show (List.lookup x ((k, v) :: _)).isSome = (List.lookup x ((k, v) :: rest)).isSome
        simp only [List.lookup, hx]
        exact ih
      · show (List.lookup x ((k, v) :: _)).isSome = (List.lookup x ((k, v) :: rest)).isSome
        simp only [List.lookup, hx]

theorem applyTargets_changes (inc : Bool) (eff : ℚ) (ts : List String)
    (st : StateMap) :
    (applyTargets inc eff st ts).2 =
      (ts.filter (fun ab => (getState st ab).isSome)).map
        (fun ab => (ab, eff)) := by
  induction ts generalizing st with
  | nil => rfl
  | cons ab rest ih =>
    simp only [applyTargets]
    cases h : getState st ab with
    | none =>
      have hb : ((getState st ab).isSome) = false := by rw [h]; rfl
      rw [List.filter_cons, if_neg (by simp [hb])]
      exact ih st
    | some s =>
      dsimp only
      have hb : ((getState st ab).isSome) = true := by rw [h]; rfl
      rw [List.filter_cons, if_pos hb, List.map_cons]
      congr 1
      rw [ih (setState st ab
        (if inc then s.apply_support_change eff 0
         else s.apply_support_change 0 eff))]
      congr 1
      apply List.filter_congr
      intro x _
      rw [getState_setState_isSome]

theorem execute_targeted_action_result (gs : GameState) (inc : Bool)
    (defn : ActionDefinition) (tg : List String) :
    (execute_targeted_action gs inc defn tg).2 =
      ⟨defn.action_type, true, "Targeted action boosted support", defn.cost, 0,
       (applyTargets inc
         (defn.base_support_change *
           (if inc then gs.incumbent else gs.challenger).momentum_modifier)
         gs.states
         ((if tg.isEmpty then select_target_states gs.states defn.target_states
           else tg).take defn.target_states)).2,
       defn.momentum_change,
       (if tg.isEmpty then select_target_states gs.states defn.target_states
        else tg).take defn.target_states⟩ := rfl

theorem execute_targeted_action_player (gs : GameState) (inc : Bool)
    (defn : ActionDefinition) (tg : List String) :
    (if inc then (execute_targeted_action gs inc defn tg).1.incumbent
     else (execute_targeted_action gs inc defn tg).1.challenger) =
      ((if inc then gs.incumbent else gs.challenger).update (-defn.cost)
        defn.momentum_change) := by
  cases inc <;> rfl

/-- C9 (amended): a targeted action (Rally, Ad Campaign, Grassroots) with a
nonempty caller-supplied target list first truncates that list to the
action's target count; it then succeeds, deducts the full cost, applies the
momentum delta, reports exactly the truncated list as `affected_states`,
and applies and records support changes only for the truncated entries
that are keys of the states map — an unrecognized abbreviation inside the
truncated list is still listed in `affected_states` but gets no support
change, while one truncated away is not listed at all. -/
theorem targeted_action_spec (gs : GameState) (a : ActionType) (inc : Bool)
    (tg : List String) (rng : List ℤ)
    (ha : a = .RALLY ∨ a = .AD_CAMPAIGN ∨ a = .GRASSROOTS)
    (hne : tg ≠ [])
    (hf : (get_action_definition a).cost ≤
      (if inc then gs.incumbent else gs.challenger).funds) :
    (execute_action gs a inc tg rng).result.success = true ∧
    (execute_action gs a inc tg rng).result.funds_spent =
      (get_action_definition a).cost ∧
    (if inc then (execute_action gs a inc tg rng).game.incumbent
     else (execute_action gs a inc tg rng).game.challenger) =
      (if inc then gs.incumbent else gs.challenger).update
        (-(get_action_definition a).cost)
        (get_action_definition a).momentum_change ∧
    (execute_action gs a inc tg rng).result.momentum_change =
      (get_action_definition a).momentum_change ∧
    (execute_action gs a inc tg rng).result.affected_states =
      tg.take (get_action_definition a).target_states ∧
    (execute_action gs a inc tg rng).result.support_changes =
      ((tg.take (get_action_definition a).target_states).filter
        (fun ab => (getState gs.states ab).isSome)).map
        (fun ab => (ab, (get_action_definition a).base_support_change *
          (if inc then gs.incumbent else gs.challenger).momentum_modifier)) ∧
    (∀ ab ∈ tg.take (get_action_definition a).target_states,
      getState gs.states ab = none →
        ab ∈ (execute_action gs a inc tg rng).result.affected_states ∧
        ∀ q ∈ (execute_action gs a inc tg rng).result.support_changes,
          q.1 ≠ ab) := by
  have hca : ((if inc then gs.incumbent else gs.challenger).can_afford
      (get_action_definition a).cost) = true := by
    simp only [Player.can_afford, decide_eq_true_eq]
    exact hf
  have hnf : ¬ a = ActionType.FUNDRAISER := by
    rcases ha with h | h | h <;> subst h <;> decide
  have hno : ¬ a = ActionType.OPPOSITION_RESEARCH := by
    rcases ha with h | h | h <;> subst h <;> decide
  have htp : 0 < (get_action_definition a).target_states := by
    rcases ha with h | h | h <;> subst h <;> decide
  have hemp : tg.isEmpty = false := by
    cases tg
    · exact absurd rfl hne
    · rfl
  have hred : execute_action gs a inc tg rng =
      ⟨(execute_targeted_action gs inc (get_action_definition a) tg).1,
       (execute_targeted_action gs inc (get_action_definition a) tg).2, rng⟩ := by
    simp only [execute_action]
    rw [if_neg (by simp [hca]), if_neg hnf, if_neg hno, if_pos htp]
  rw [hred]
  dsimp only
  rw [execute_targeted_action_result]
  dsimp only
  simp only [hemp, Bool.false_eq_true, if_false]
  have hchanges := applyTargets_changes inc
    ((get_action_definition a).base_support_change *
      (if inc then gs.incumbent else gs.challenger).momentum_modifier)
    (tg.take (get_action_definition a).target_states) gs.states
  refine ⟨?_, ?_, ?_, ?_, ?_, ?_, ?_⟩
  · trivial
  · trivial
  · exact execute_targeted_action_player gs inc _ tg
  · trivial
  · trivial
  · exact hchanges
  · intro ab hab habn
    refine ⟨hab, ?_⟩
    intro q hq
    rw [hchanges] at hq
    obtain ⟨x, hx, rfl⟩ := List.mem_map.1 hq
    have hxs := List.of_mem_filter hx
    intro hqe
    have hx2 : x = ab := hqe
    rw [hx2, habn] at hxs
    exact absurd hxs (by decide)

/-- Witness for C9: an incumbent rally on the fresh board targeting
["CA", "ZZ"] succeeds and reports the truncated (one-state) target list. -/
theorem targeted_action_spec_witness :
    (execute_action (new_game "P" "C") .RALLY true ["CA", "ZZ"] []).result.success
      = true ∧
    (execute_action (new_game "P" "C") .RALLY true ["CA", "ZZ"] []).result.affected_states
      = (["CA", "ZZ"] : List String).take
          (get_action_definition .RALLY).target_states := by
  have h := targeted_action_spec (new_game "P" "C") .RALLY true ["CA", "ZZ"] []
    (Or.inl rfl) (by decide) (by decide)
  exact ⟨h.1, h.2.2.2.2.1⟩

/-- Counterexample to C9 as stated: a Rally allows one target, so the caller
list ["CA", "ZZ"] is truncated to ["CA"] before anything else; the unknown
abbreviation "ZZ" from the caller-supplied list is then absent from the
result's `affected_states`, not listed in it. -/
theorem targeted_action_counterexample :
    "ZZ" ∈ (["CA", "ZZ"] : List String) ∧
    getState (new_game "P" "C").states "ZZ" = none ∧
    (execute_action (new_game "P" "C") .RALLY true ["CA", "ZZ"] []).result.success
      = true ∧
    "ZZ" ∉
      (execute_action (new_game "P" "C") .RALLY true ["CA", "ZZ"] []).result.affected_states := by
  refine ⟨by decide, by decide, by decide, by decide⟩

end Campaign
